import Mathlib

/-!
# Verification of the LiMe line-measuring toolkit

Shallow embedding, in Lean 4, of the parts of the `lime` package
(`src/lime/tools.py`, `src/lime/io.py`, `src/lime/plots_interactive.py`)
needed to settle the specification claims: line-label decomposition and
Latex rendering, lines-log file-format dispatch on load and save,
configuration-section overlay, interactive band-drag classification,
peak-to-mask matching tolerance, dataframe/file polymorphic resolution,
spaxel spatial-mask toggling, band-label cycling and the line-width
walking primitives.

Python strings are modelled by Lean `String`, Python floats by `ℚ`
(the numeric comparisons involved are exact at this granularity),
NumPy boolean arrays by functions into `Bool`, and Python dictionaries
by functions into `Option`.
-/

namespace LiMe

/-! ## Python string helpers

`pySliceLastTwo s` models the Python slice `s[-2:]` and `pyDropLastTwo s`
models `s[:-2]` (for strings of length `< 2` Python returns the whole
string, respectively the empty string, matching `Nat` truncation). -/

def pySliceLastTwo (s : String) : String :=
  ⟨s.data.drop (s.data.length - 2)⟩

def pyDropLastTwo (s : String) : String :=
  ⟨s.data.take (s.data.length - 2)⟩

/-- Python `or` on strings: `a or b` returns `a` when `a` is truthy
(non-empty), else `b`. -/
def pyStrOr (a b : String) : String :=
  if a = "" then b else a

/-! ## `plots_interactive.circle_band_label`

Source (`plots_interactive.py:128-138`):
```
line_suffix = current_label[-2:]
if line_suffix == '_b':   new_label = f'{current_label[:-2]}_m'
elif line_suffix == '_m': new_label = current_label[:-2]
else:                     new_label = f'{current_label}_b'
```
-/

def circle_band_label (current_label : String) : String :=
  let line_suffix := pySliceLastTwo current_label
  if line_suffix = "_b" then pyDropLastTwo current_label ++ "_m"
  else if line_suffix = "_m" then pyDropLastTwo current_label
  else current_label ++ "_b"

lemma data_append (a b : String) : (a ++ b).data = a.data ++ b.data := rfl

lemma pySliceLastTwo_append_two (s : String) (c₁ c₂ : Char) :
    pySliceLastTwo (s ++ ⟨[c₁, c₂]⟩) = ⟨[c₁, c₂]⟩ := by
  unfold pySliceLastTwo
  apply congrArg
  rw [data_append]
  simp

lemma pyDropLastTwo_append_two (s : String) (c₁ c₂ : Char) :
    pyDropLastTwo (s ++ ⟨[c₁, c₂]⟩) = s := by
  obtain ⟨l⟩ := s
  show (⟨(l ++ [c₁, c₂]).take ((l ++ [c₁, c₂]).length - 2)⟩ : String) = ⟨l⟩
  have h : (l ++ [c₁, c₂]).take ((l ++ [c₁, c₂]).length - 2) = l := by simp
  rw [h]

lemma append_two_ne_self (s : String) (c₁ c₂ : Char) : s ++ ⟨[c₁, c₂]⟩ ≠ s := by
  intro h
  have hlen : (s ++ (⟨[c₁, c₂]⟩ : String)).data.length = s.data.length := by rw [h]
  rw [data_append] at hlen
  simp at hlen

lemma slice_append_b (s : String) : pySliceLastTwo (s ++ "_b") = "_b" :=
  pySliceLastTwo_append_two s '_' 'b'

lemma slice_append_m (s : String) : pySliceLastTwo (s ++ "_m") = "_m" :=
  pySliceLastTwo_append_two s '_' 'm'

lemma drop_append_b (s : String) : pyDropLastTwo (s ++ "_b") = s :=
  pyDropLastTwo_append_two s '_' 'b'

lemma drop_append_m (s : String) : pyDropLastTwo (s ++ "_m") = s :=
  pyDropLastTwo_append_two s '_' 'm'

/-- A label is *bare* when it does not carry the blended `_b` or merged `_m`
suffix, i.e. its last two characters are neither. -/
def bareLabel (s : String) : Prop :=
  pySliceLastTwo s ≠ "_b" ∧ pySliceLastTwo s ≠ "_m"

instance (s : String) : Decidable (bareLabel s) := by
  unfold bareLabel; infer_instance

/-- C9 — `circle_band_label` cycles a bare label `X` through
`X → X_b → X_m → X`: three applications are the identity and one or two
applications never return the starting label. -/
theorem circle_band_label_three_cycle (X : String) (hX : bareLabel X) :
    circle_band_label (circle_band_label (circle_band_label X)) = X ∧
    circle_band_label X = X ++ "_b" ∧
    circle_band_label (circle_band_label X) = X ++ "_m" ∧
    circle_band_label X ≠ X ∧
    circle_band_label (circle_band_label X) ≠ X := by
  obtain ⟨hb, hm⟩ := hX
  have h1 : circle_band_label X = X ++ "_b" := by
    unfold circle_band_label
    rw [if_neg hb, if_neg hm]
  have h2 : circle_band_label (X ++ "_b") = X ++ "_m" := by
    unfold circle_band_label
    rw [slice_append_b, if_pos rfl, drop_append_b]
  have h3 : circle_band_label (X ++ "_m") = X := by
    unfold circle_band_label
    rw [slice_append_m, if_neg (by decide), if_pos rfl, drop_append_m]
  refine ⟨?_, h1, ?_, ?_, ?_⟩
  · rw [h1, h2, h3]
  · rw [h1, h2]
  · rw [h1]; exact append_two_ne_self X '_' 'b'
  · rw [h1, h2]; exact append_two_ne_self X '_' 'm'

/-- C9 witness: the bare label `"O3_5007A"` cycles back after exactly three
applications. -/
theorem circle_band_label_three_cycle_witness :
    bareLabel "O3_5007A" ∧
    (circle_band_label (circle_band_label (circle_band_label "O3_5007A")) = "O3_5007A" ∧
     circle_band_label "O3_5007A" = "O3_5007A" ++ "_b" ∧
     circle_band_label (circle_band_label "O3_5007A") = "O3_5007A" ++ "_m" ∧
     circle_band_label "O3_5007A" ≠ "O3_5007A" ∧
     circle_band_label (circle_band_label "O3_5007A") ≠ "O3_5007A") :=
  ⟨by decide, circle_band_label_three_cycle "O3_5007A" (by decide)⟩

/-! ## `io.load_log` file-suffix dispatch

Source (`io.py:104-130`): after extracting `file_type = log_path.suffix`,
the reader dispatches as
```
if file_type == '.fits': ...
elif file_type in ['.xlsx' or '.xls']: ...   # read_excel
elif file_type == '.asdf': ...
elif file_type == '.txt': ...                # read_csv, whitespace
else: warning; read_csv fallback
```
The Python expression `'.xlsx' or '.xls'` evaluates `or` on strings
(`pyStrOr`), so the membership list is the single-element `['.xlsx']`. -/

inductive LoadBranch
  | fits | excel | asdf | txt | txtFallback
  deriving DecidableEq, Repr

/-- The list literal `['.xlsx' or '.xls']` from `io.py:114`. -/
def excel_suffix_list : List String := [pyStrOr ".xlsx" ".xls"]

def load_log_branch (file_type : String) : LoadBranch :=
  if file_type = ".fits" then .fits
  else if file_type ∈ excel_suffix_list then .excel
  else if file_type = ".asdf" then .asdf
  else if file_type = ".txt" then .txt
  else .txtFallback

/-- C2 counterexample — a `.xls` lines log is not read through the
spreadsheet branch: it falls into the unrecognized-suffix fallback
(warning plus whitespace-text parse), because `['.xlsx' or '.xls']`
evaluates to `['.xlsx']`. -/
theorem load_log_xls_not_excel :
    load_log_branch ".xls" = LoadBranch.txtFallback ∧
    load_log_branch ".xls" ≠ LoadBranch.excel := by
  constructor <;> decide

/-- C2 amended — only `.xlsx` files take the spreadsheet branch (sheet
named by `ext`, header row 0, index column 0); `.xls` files fall through
to the warning-plus-whitespace-text fallback path. -/
theorem load_log_excel_dispatch :
    load_log_branch ".xlsx" = LoadBranch.excel ∧
    load_log_branch ".xls" = LoadBranch.txtFallback := by
  constructor <;> decide

/-! ## `io.save_log` file-suffix dispatch

Source (`io.py:177-284`): `save_log` first asserts the destination's
parent directory exists, then — only when the table has at least one
row — dispatches on the suffix (`.txt`, `.pdf`, `.fits`,
`.xlsx`/`.xls`, `.asdf`), raising `LiMe_Error` for any other suffix.
A zero-row table short-circuits to an informational message and no
write at all. -/

inductive SaveOutcome
  | assertError            -- parent directory missing (Python AssertionError)
  | txtWrite | pdfWrite | fitsWrite | excelWrite | asdfWrite
  | limeError              -- raise LiMe_Error(f'output extension ... not recognised')
  | emptyNoWrite           -- logger.info, no file written
  deriving DecidableEq, Repr

def save_log_outcome (parentExists : Bool) (nonEmpty : Bool)
    (file_type : String) : SaveOutcome :=
  if parentExists = false then .assertError
  else if nonEmpty then
    if file_type = ".txt" then .txtWrite
    else if file_type = ".pdf" then .pdfWrite
    else if file_type = ".fits" then .fitsWrite
    else if file_type = ".xlsx" ∨ file_type = ".xls" then .excelWrite
    else if file_type = ".asdf" then .asdfWrite
    else .limeError
  else .emptyNoWrite

/-- C3 counterexample — an *empty* lines log saved to an unsupported
suffix (`.json`) does not raise the LiMe domain error: the empty-table
branch short-circuits before the suffix dispatch, so the claim's
universal quantification over every input table fails. -/
theorem save_log_empty_unrecognized_no_error :
    save_log_outcome true false ".json" = SaveOutcome.emptyNoWrite ∧
    save_log_outcome true false ".json" ≠ SaveOutcome.limeError := by
  constructor <;> decide

/-- C3 amended — for every *non-empty* lines log and destination whose
parent directory exists, a suffix outside
`.txt/.pdf/.fits/.asdf/.xlsx/.xls` makes `save_log` raise the LiMe
domain error. -/
theorem save_log_unrecognized_raises (file_type : String)
    (h : file_type ∉ [".txt", ".pdf", ".fits", ".asdf", ".xlsx", ".xls"]) :
    save_log_outcome true true file_type = SaveOutcome.limeError := by
  simp only [List.mem_cons, List.mem_singleton, not_or] at h
  obtain ⟨h1, h2, h3, h4, h5, h6⟩ := h
  unfold save_log_outcome
  simp [h1, h2, h3, h4, h5, h6]

/-- C3 witness: saving a non-empty table to a `.json` destination raises
the domain error. -/
theorem save_log_unrecognized_raises_witness :
    (".json" : String) ∉ [".txt", ".pdf", ".fits", ".asdf", ".xlsx", ".xls"] ∧
    save_log_outcome true true ".json" = SaveOutcome.limeError :=
  ⟨by decide, save_log_unrecognized_raises ".json" (by decide)⟩

/-! ## `io.load_cfg` per-object section overlay

Source (`io.py:493-527`): with `obj_list` supplied the parser asserts the
default section `def_cfg_sec` exists, keeps a reference `global_cfg` to it,
and for every object runs
```
global_dict = copy.deepcopy(global_cfg)
local_label = f'{obj}_line_fitting'
local_dict = cfg_lime[local_label] if local_label in cfg_lime else {}
global_dict.update(local_dict)
cfg_lime[local_label] = global_dict
```
Sections (Python dicts) are modelled as `String → Option V`, the whole
configuration as `String → Option (String → Option V)`; `deepcopy` is
the identity on immutable Lean values. -/

/-- Python `dict.update`: `g` updated with `l` holds `l`'s value wherever
`l` has the key and `g`'s value elsewhere. -/
def dictUpdate {V : Type} (g l : String → Option V) : String → Option V :=
  fun k => match l k with
    | some v => some v
    | none => g k

/-- The section name `f'{obj}_line_fitting'`. -/
def objLabel (obj : String) : String := obj ++ "_line_fitting"

def emptySec (V : Type) : String → Option V := fun _ => none

/-- The per-object loop of `load_cfg` (`io.py:517-525`): `global` is the
default section captured before the loop; each object's merged section is
stored back under its `{obj}_line_fitting` name. -/
def overlayObjs {V : Type} (global : String → Option V) :
    List String → (String → Option (String → Option V)) →
    (String → Option (String → Option V))
  | [], cfg => cfg
  | obj :: rest, cfg =>
      let label := objLabel obj
      let localSec := (cfg label).getD (emptySec V)
      let merged := dictUpdate global localSec
      overlayObjs global rest (fun k => if k = label then some merged else cfg k)

/-- `load_cfg`'s `obj_list` handling: fails (assertion) when the default
section is absent, otherwise runs the overlay loop. -/
def load_cfg_objs {V : Type} (cfg : String → Option (String → Option V))
    (def_cfg_sec : String) (objList : List String) :
    Option (String → Option (String → Option V)) :=
  match cfg def_cfg_sec with
  | none => none
  | some global => some (overlayObjs global objList cfg)

lemma objLabel_injective : Function.Injective objLabel := by
  intro a b h
  have hdata : a.data ++ "_line_fitting".data = b.data ++ "_line_fitting".data := by
    have := congrArg String.data h
    simpa [objLabel, data_append] using this
  have := List.append_left_injective "_line_fitting".data hdata
  cases a; cases b; exact congrArg String.mk this

lemma dictUpdate_self_update {V : Type} (g l : String → Option V) :
    dictUpdate g (dictUpdate g l) = dictUpdate g l := by
  funext k
  unfold dictUpdate
  cases l k <;> cases g k <;> rfl

lemma overlayObjs_not_mem {V : Type} (global : String → Option V)
    (objList : List String) (cfg : String → Option (String → Option V))
    (k : String) (hk : ∀ o ∈ objList, k ≠ objLabel o) :
    overlayObjs global objList cfg k = cfg k := by
  induction objList generalizing cfg with
  | nil => rfl
  | cons head rest ih =>
      have hhead : k ≠ objLabel head := hk head (by simp)
      rw [overlayObjs]
      rw [ih _ (fun o ho => hk o (by simp [ho]))]
      simp [hhead]

lemma overlayObjs_mem {V : Type} (global : String → Option V)
    (objList : List String) (cfg : String → Option (String → Option V))
    (obj : String) (hobj : obj ∈ objList) :
    overlayObjs global objList cfg (objLabel obj) =
      some (dictUpdate global ((cfg (objLabel obj)).getD (emptySec V))) := by
  induction objList generalizing cfg with
  | nil => cases hobj
  | cons head rest ih =>
      rw [overlayObjs]
      by_cases hh : obj = head
      · subst hh
        by_cases hr : obj ∈ rest
        · rw [ih _ hr]
          simp [dictUpdate_self_update]
        · rw [overlayObjs_not_mem]
          · simp
          · intro o ho hlab
            exact hr (objLabel_injective hlab ▸ ho)
      · have hrest : obj ∈ rest := by
          cases hobj with
          | head => exact absurd rfl hh
          | tail _ h => exact h
        rw [ih _ hrest]
        have : objLabel obj ≠ objLabel head := fun h => hh (objLabel_injective h)
        simp [this]

/-- C4 — after `load_cfg` with an object list, every listed object's
`{obj}_line_fitting` section equals the default section updated with the
object's own section from the parsed file: object-specific entries win on
key conflicts, default-only keys are preserved, and a missing object
section yields a plain copy of the default section. -/
theorem load_cfg_object_overlay {V : Type}
    (cfg : String → Option (String → Option V)) (def_cfg_sec : String)
    (global : String → Option V) (hdef : cfg def_cfg_sec = some global)
    (objList : List String) (obj : String) (hobj : obj ∈ objList) :
    ∃ out, load_cfg_objs cfg def_cfg_sec objList = some out ∧
      out (objLabel obj) =
        some (dictUpdate global ((cfg (objLabel obj)).getD (emptySec V))) :=
  ⟨overlayObjs global objList cfg, by rw [load_cfg_objs, hdef],
   overlayObjs_mem global objList cfg obj hobj⟩

/-- Concrete default section `{a:1, b:2}` from the claim's example. -/
def exDefaultSec : String → Option ℤ :=
  fun k => if k = "a" then some 1 else if k = "b" then some 2 else none

/-- Concrete object section `{b:3, c:4}` from the claim's example. -/
def exObjSec : String → Option ℤ :=
  fun k => if k = "b" then some 3 else if k = "c" then some 4 else none

/-- Concrete parsed configuration holding the two example sections. -/
def exCfg : String → Option (String → Option ℤ) :=
  fun s => if s = "line_fitting" then some exDefaultSec
           else if s = "obj_line_fitting" then some exObjSec else none

/-- C4 witness: for the example sections `{a:1,b:2}` and
`obj_line_fitting = {b:3,c:4}`, the stored merged section is
`{a:1, b:3, c:4}`. -/
theorem load_cfg_object_overlay_witness :
    exCfg "line_fitting" = some exDefaultSec ∧ "obj" ∈ ["obj"] ∧
    (∃ out, load_cfg_objs exCfg "line_fitting" ["obj"] = some out ∧
      out (objLabel "obj") =
        some (dictUpdate exDefaultSec ((exCfg (objLabel "obj")).getD (emptySec ℤ)))) ∧
    dictUpdate exDefaultSec exObjSec "a" = some 1 ∧
    dictUpdate exDefaultSec exObjSec "b" = some 3 ∧
    dictUpdate exDefaultSec exObjSec "c" = some 4 :=
  ⟨rfl, by decide,
   load_cfg_object_overlay exCfg "line_fitting" exDefaultSec rfl ["obj"] "obj" (by decide),
   rfl, rfl, rfl⟩

/-! ## `plots_interactive.BandsInspection._on_select_MI`

Source (`plots_interactive.py:421-467`): a left-mouse drag with span
`(w_low, w_high)` first checks `w_low != w_high` (a plain click is a
no-op), converts to the rest frame if needed, and then classifies
against the current six-wavelength band `self.mask = [w1..w6]`:
```
if   w_low > mask[1] and w_high < mask[4]: mask[2], mask[3] = w_low, w_high   # line band
elif w_low < mask[2] and w_high < mask[2]: mask[0], mask[1] = w_low, w_high   # blue band
elif w_low > mask[3] and w_high > mask[3]: mask[4], mask[5] = w_low, w_high   # red band
elif w_low < mask[0] and w_high > mask[5]: print('removed')                   # mask unchanged
else: logger.info('Unsuccessful line selection')                              # mask unchanged
```
Note `mask[1] = w2`, `mask[2] = w3`, `mask[3] = w4`, `mask[4] = w5`:
the blue branch requires both endpoints below `w3` (not `w2`) and the
red branch both endpoints above `w4` (not `w3`). -/

structure Mask where
  w1 : ℚ
  w2 : ℚ
  w3 : ℚ
  w4 : ℚ
  w5 : ℚ
  w6 : ℚ
  deriving DecidableEq, Repr

inductive DragBranch
  | click    -- equal endpoints, nothing happens
  | core     -- line band update (w3, w4)
  | blue     -- blue continuum update (w1, w2)
  | red      -- red continuum update (w5, w6)
  | removed  -- removal message printed, band values unchanged
  | weird    -- unsuccessful-selection message, band values unchanged
  deriving DecidableEq, Repr

def on_select_MI (rest_frame : Bool) (redshift : ℚ) (m : Mask)
    (w_low w_high : ℚ) : DragBranch × Mask :=
  if w_low ≠ w_high then
    let wl := if rest_frame = false then w_low / (1 + redshift) else w_low
    let wh := if rest_frame = false then w_high / (1 + redshift) else w_high
    if wl > m.w2 ∧ wh < m.w5 then (.core, { m with w3 := wl, w4 := wh })
    else if wl < m.w3 ∧ wh < m.w3 then (.blue, { m with w1 := wl, w2 := wh })
    else if wl > m.w4 ∧ wh > m.w4 then (.red, { m with w5 := wl, w6 := wh })
    else if wl < m.w1 ∧ wh > m.w6 then (.removed, m)
    else (.weird, m)
  else (.click, m)

/-- The example band `[w1..w6] = [1,2,3,4,5,6]` from the claim. -/
def exBand : Mask := ⟨1, 2, 3, 4, 5, 6⟩

/-- C5 counterexample — on band `[1,2,3,4,5,6]` the drag `(0.5, 2.5)`
updates the blue continuum `w1,w2` although it does *not* lie entirely
below `w2 = 2`; per the claim (not core, not entirely below `w2`, not
entirely above `w3`, not full-span) it should have been logged and
ignored. The blue branch actually tests both endpoints against `w3`. -/
theorem bands_drag_blue_counterexample :
    on_select_MI true 0 exBand (1/2) (5/2) =
      (DragBranch.blue, ⟨1/2, 5/2, 3, 4, 5, 6⟩) ∧
    ¬((5/2 : ℚ) < exBand.w2) ∧
    ¬((1/2 : ℚ) > exBand.w2 ∧ (5/2 : ℚ) < exBand.w5) ∧
    ¬((1/2 : ℚ) > exBand.w3) ∧
    ¬((1/2 : ℚ) < exBand.w1 ∧ (5/2 : ℚ) > exBand.w6) := by
  refine ⟨?_, by norm_num [exBand], by norm_num [exBand], by norm_num [exBand],
          by norm_num [exBand]⟩
  norm_num [on_select_MI, exBand]

/-- C5 amended — rest-frame drag classification on a six-wavelength band:
the line core `w3,w4` is re-assigned exactly when the span lies strictly
inside `(w2, w5)`; failing that, the blue continuum `w1,w2` when both
endpoints lie below `w3`; failing that, the red continuum `w5,w6` when
both endpoints lie above `w4`; failing that, the removal branch when the
span covers the whole `w1..w6` band; any other placement is logged and
leaves the band unchanged, and a click (equal endpoints) changes
nothing. -/
theorem bands_drag_classification (m : Mask) (wl wh : ℚ) (hne : wl ≠ wh) :
    (wl > m.w2 ∧ wh < m.w5 →
      on_select_MI true 0 m wl wh = (.core, { m with w3 := wl, w4 := wh })) ∧
    (¬(wl > m.w2 ∧ wh < m.w5) → wl < m.w3 ∧ wh < m.w3 →
      on_select_MI true 0 m wl wh = (.blue, { m with w1 := wl, w2 := wh })) ∧
    (¬(wl > m.w2 ∧ wh < m.w5) → ¬(wl < m.w3 ∧ wh < m.w3) →
     wl > m.w4 ∧ wh > m.w4 →
      on_select_MI true 0 m wl wh = (.red, { m with w5 := wl, w6 := wh })) ∧
    (¬(wl > m.w2 ∧ wh < m.w5) → ¬(wl < m.w3 ∧ wh < m.w3) →
     ¬(wl > m.w4 ∧ wh > m.w4) → wl < m.w1 ∧ wh > m.w6 →
      on_select_MI true 0 m wl wh = (.removed, m)) ∧
    (¬(wl > m.w2 ∧ wh < m.w5) → ¬(wl < m.w3 ∧ wh < m.w3) →
     ¬(wl > m.w4 ∧ wh > m.w4) → ¬(wl < m.w1 ∧ wh > m.w6) →
      on_select_MI true 0 m wl wh = (.weird, m)) ∧
    on_select_MI true 0 m wl wl = (.click, m) := by
  refine ⟨fun h1 => ?_, fun h1 h2 => ?_, fun h1 h2 h3 => ?_,
          fun h1 h2 h3 h4 => ?_, fun h1 h2 h3 h4 => ?_, ?_⟩
  · simp [on_select_MI, hne, h1]
  · simp [on_select_MI, hne, h1, h2]
  · simp [on_select_MI, hne, h1, h2, h3]
  · simp [on_select_MI, hne, h1, h2, h3, h4.1, h4.2]
  · simp [on_select_MI, hne, h1, h2, h3, h4]
  · simp [on_select_MI]

/-- C5 witness: on band `[1,2,3,4,5,6]` the drag `(2.2, 3.8)` lies
strictly inside `(w2, w5)` and updates only the line core to
`w3,w4 = (2.2, 3.8)`. -/
theorem bands_drag_classification_witness :
    ((2.2 : ℚ) ≠ 3.8) ∧ ((2.2 : ℚ) > exBand.w2 ∧ (3.8 : ℚ) < exBand.w5) ∧
    on_select_MI true 0 exBand 2.2 3.8 = (DragBranch.core, ⟨1, 2, 2.2, 3.8, 5, 6⟩) :=
  ⟨by norm_num, by norm_num [exBand],
   (bands_drag_classification exBand 2.2 3.8 (by norm_num)).1
     (by norm_num [exBand])⟩

/-! ## `io.check_file_dataframe`

Source (`io.py:314-325`):
```
if isinstance(input, variable_type): output = input
elif Path(input).is_file():          output = load_log(input, ...)
else:                                output = None
return output
```
`variable_type` is the target container type (`pandas.DataFrame` at the
call sites).  Crucially, `Path(input)` raises `TypeError` whenever
`input` is neither a `str` nor an `os.PathLike` (e.g. `None`, an `int`
or a `float`), so the `elif` line itself can raise.  Python values are
modelled by `PyVal`; `pyPathable` returns the string a `Path` can be
built from, or `none` when `Path(...)` would raise `TypeError`. -/

structure LogTable where
  rows : List String
  deriving DecidableEq, Repr

inductive PyVal
  | dataframe (t : LogTable)   -- an instance of the target container type
  | pathStr (s : String)       -- str (or os.PathLike) input
  | noneVal                    -- Python None
  | intVal (n : ℤ)
  | floatVal (q : ℚ)
  deriving DecidableEq, Repr

def pyPathable : PyVal → Option String
  | .pathStr s => some s
  | _ => none

inductive CheckFDResult
  | ok (v : Option LogTable)   -- function returns (some table, or Python None)
  | typeError                  -- Path(input) raised TypeError
  deriving DecidableEq, Repr

def check_file_dataframe (input : PyVal) (isFile : String → Bool)
    (loadLog : String → LogTable) : CheckFDResult :=
  match input with
  | .dataframe t => .ok (some t)
  | other =>
      match pyPathable other with
      | some s => if isFile s then .ok (some (loadLog s)) else .ok none
      | none => .typeError

/-- C7 counterexample — `check_file_dataframe` can raise: on input `None`
(not a dataframe, not a path-like), `Path(None)` raises `TypeError`
instead of returning the no-value result. -/
theorem check_file_dataframe_raises :
    check_file_dataframe PyVal.noneVal (fun _ => false) (fun _ => ⟨[]⟩) =
      CheckFDResult.typeError ∧
    check_file_dataframe PyVal.noneVal (fun _ => false) (fun _ => ⟨[]⟩) ≠
      CheckFDResult.ok none := by
  exact ⟨rfl, by decide⟩

/-- C7 amended — `check_file_dataframe` returns a dataframe input
unchanged; a string input is loaded through `load_log` when it names an
existing file and resolves to the no-value result otherwise; but any
input that is neither the target container type nor path-like makes the
`Path(input)` construction raise `TypeError`, so the helper is not
raise-free. -/
theorem check_file_dataframe_resolution (isFile : String → Bool)
    (loadLog : String → LogTable) :
    (∀ t, check_file_dataframe (.dataframe t) isFile loadLog = .ok (some t)) ∧
    (∀ s, isFile s = true →
      check_file_dataframe (.pathStr s) isFile loadLog = .ok (some (loadLog s))) ∧
    (∀ s, isFile s = false →
      check_file_dataframe (.pathStr s) isFile loadLog = .ok none) ∧
    (∀ v : PyVal, (∀ t, v ≠ .dataframe t) → pyPathable v = none →
      check_file_dataframe v isFile loadLog = .typeError) := by
  refine ⟨fun t => rfl, fun s hs => ?_, fun s hs => ?_, fun v hdf hpath => ?_⟩
  · simp [check_file_dataframe, pyPathable, hs]
  · simp [check_file_dataframe, pyPathable, hs]
  · cases v with
    | dataframe t => exact absurd rfl (hdf t)
    | pathStr s => exact absurd hpath (by simp [pyPathable])
    | noneVal => rfl
    | intVal n => rfl
    | floatVal q => rfl

/-- C7 witness: a concrete existing path is loaded through `load_log`. -/
theorem check_file_dataframe_resolution_witness :
    (fun (_ : String) => true) "log.txt" = true ∧
    check_file_dataframe (.pathStr "log.txt") (fun _ => true)
      (fun _ => ⟨["O3_5007A"]⟩) = .ok (some ⟨["O3_5007A"]⟩) :=
  ⟨rfl, (check_file_dataframe_resolution (fun _ => true)
          (fun _ => ⟨["O3_5007A"]⟩)).2.1 "log.txt" rfl⟩

/-! ## `plots_interactive.CubeInspector.spaxel_selection`

Source (`plots_interactive.py:1149-1158`):
```
for mask, mask_data in self.masks_dict.items():
    mask_matrix = mask_data[0]
    if mask == self.mask_ext:
        mask_matrix[j, i] = not mask_matrix[j, i]
    else:
        mask_matrix[j, i] = False
```
The loaded spatial masks are a dict of region name → (boolean 2D array,
header); the header plays no role here so a region is modelled as its
boolean array `Fin r × Fin c → Bool`, and the dict as an
association list with unique names. -/

def spaxel_selection {r c : ℕ} (masks : List (String × (Fin r × Fin c → Bool)))
    (mask_ext : String) (coords : Fin r × Fin c) :
    List (String × (Fin r × Fin c → Bool)) :=
  masks.map (fun p =>
    (p.1, fun x => if x = coords then
                     (if p.1 = mask_ext then !(p.2 coords) else false)
                   else p.2 x))

/-- Number of loaded mask regions containing the spaxel `x`. -/
def regionCount {r c : ℕ} (masks : List (String × (Fin r × Fin c → Bool)))
    (x : Fin r × Fin c) : ℕ :=
  masks.countP (fun p => p.2 x)

/-- C8 — the double-click toggle keeps spatial masks mutually exclusive:
region names are preserved; after the toggle no region other than the
selected one contains the clicked spaxel; the selected region's
membership of the clicked spaxel is inverted; every other spaxel's
memberships are untouched; and if each spaxel belonged to at most one
region before, the same holds after. -/
theorem spaxel_selection_exclusive {r c : ℕ}
    (masks : List (String × (Fin r × Fin c → Bool)))
    (sel : String) (coords : Fin r × Fin c)
    (hnames : (masks.map Prod.fst).Nodup)
    (hinv : ∀ x, regionCount masks x ≤ 1) :
    ((spaxel_selection masks sel coords).map Prod.fst = masks.map Prod.fst) ∧
    (∀ q ∈ spaxel_selection masks sel coords, q.1 ≠ sel → q.2 coords = false) ∧
    (∀ m, (sel, m) ∈ masks →
      ((sel, fun x => if x = coords then !(m coords) else m x) ∈
        spaxel_selection masks sel coords)) ∧
    (∀ p ∈ masks, ∀ x, x ≠ coords →
      ((p.1, fun y => if y = coords then
                        (if p.1 = sel then !(p.2 coords) else false)
                      else p.2 y) ∈ spaxel_selection masks sel coords ∧
       (if x = coords then (if p.1 = sel then !(p.2 coords) else false)
        else p.2 x) = p.2 x)) ∧
    (∀ x, regionCount (spaxel_selection masks sel coords) x ≤ 1) := by
  refine ⟨?_, ?_, ?_, ?_, ?_⟩
  · simp [spaxel_selection, List.map_map, Function.comp_def]
  · intro q hq hne
    rw [spaxel_selection, List.mem_map] at hq
    obtain ⟨p, hp, rfl⟩ := hq
    simp only at hne ⊢
    simp [hne]
  · intro m hm
    rw [spaxel_selection, List.mem_map]
    exact ⟨(sel, m), hm, by simp⟩
  · intro p hp x hx
    constructor
    · rw [spaxel_selection, List.mem_map]
      exact ⟨p, hp, rfl⟩
    · simp [hx]
  · intro x
    by_cases hx : x = coords
    · rw [hx]
      calc regionCount (spaxel_selection masks sel coords) coords
          = masks.countP (fun p => decide (p.1 = sel) && !(p.2 coords)) := by
            unfold regionCount spaxel_selection
            rw [List.countP_map]
            apply List.countP_congr
            intro p _
            by_cases h : p.1 = sel <;> simp [Function.comp_def, h]
        _ ≤ masks.countP (fun p => decide (p.1 = sel)) := by
            apply List.countP_mono_left
            intro p _ h
            simp only [Bool.and_eq_true, decide_eq_true_eq] at h
            simp [h.1]
        _ = (masks.map Prod.fst).count sel := by
            rw [List.count, List.countP_map]
            apply List.countP_congr
            intro p _
            simp [Function.comp_def]
        _ ≤ 1 := List.nodup_iff_count_le_one.mp hnames sel
    · calc regionCount (spaxel_selection masks sel coords) x
          = regionCount masks x := by
            unfold regionCount spaxel_selection
            rw [List.countP_map]
            apply List.countP_congr
            intro p _
            simp [Function.comp_def, hx]
        _ ≤ 1 := hinv x

/-- C8 witness: with two disjoint 2×2 regions `A` (containing the
clicked spaxel) and `B`, selecting region `B` and double-clicking the
spaxel clears it from `A`, adds it to `B`, and the mutual-exclusivity
invariant still holds. -/
theorem spaxel_selection_exclusive_witness :
    (([("A", fun x : Fin 2 × Fin 2 => decide (x = (0, 0))),
       ("B", fun _ => false)].map Prod.fst).Nodup ∧
     ∀ x, regionCount [("A", fun x : Fin 2 × Fin 2 => decide (x = (0, 0))),
       ("B", fun _ => false)] x ≤ 1) ∧
    ∀ x, regionCount (spaxel_selection
      [("A", fun x : Fin 2 × Fin 2 => decide (x = (0, 0))),
       ("B", fun _ => false)] "B" (0, 0)) x ≤ 1 :=
  ⟨⟨by decide, by decide⟩,
   (spaxel_selection_exclusive
     [("A", fun x : Fin 2 × Fin 2 => decide (x = (0, 0))), ("B", fun _ => false)]
     "B" (0, 0) (by decide) (by decide)).2.2.2.2⟩

/-! ## `tools.compute_line_width` and `tools.compute_FWHM0`

Source (`tools.py:189-233`):
```
def compute_line_width(idx_peak, spec_flux, delta_i, min_delta=2, emission_check=True):
    i = idx_peak
    while (spec_flux[i] > spec_flux[i + delta_i]) or (np.abs(idx_peak - (i + delta_i)) <= min_delta):
        i += delta_i          # (absorption: '<' instead of '>')
    return i

def compute_FWHM0(idx_peak, spec_flux, delta_wave, cont_flux, emission_check=True):
    i = idx_peak
    i_final = 0 if delta_wave < 0 else spec_flux.size - 1
    while (spec_flux[i] >= cont_flux[i]) and (i != i_final):
        i += delta_wave       # (absorption: '<=' instead of '>=')
    return i
```
NumPy 1-D indexing accepts `-len ≤ i < len` (negative indices wrap from
the end) and raises `IndexError` otherwise; `pyGet` models exactly that.
The unbounded `while` loops become fuel-indexed recursions whose
`fuelExhausted` outcome is distinguished from a genuine `IndexError`. -/

inductive WalkErr
  | indexError     -- NumPy raised IndexError: index out of bounds
  | fuelExhausted  -- modelling artefact: the fuel ran out first
  deriving DecidableEq, Repr

/-- NumPy 1-D array indexing with wrap-around for negative indices. -/
def pyGet (l : List ℚ) (i : ℤ) : Option ℚ :=
  if 0 ≤ i ∧ i < l.length then l.get? i.toNat
  else if -(l.length : ℤ) ≤ i ∧ i < 0 then l.get? ((l.length : ℤ) + i).toNat
  else none

def compute_line_width_go (spec_flux : List ℚ) (idx_peak delta_i min_delta : ℤ)
    (emission_check : Bool) : ℕ → ℤ → Except WalkErr ℤ
  | 0, _ => .error .fuelExhausted
  | fuel + 1, i =>
      match pyGet spec_flux i, pyGet spec_flux (i + delta_i) with
      | some fi, some fnext =>
          if (if emission_check then fnext < fi else fi < fnext)
             ∨ |idx_peak - (i + delta_i)| ≤ min_delta then
            compute_line_width_go spec_flux idx_peak delta_i min_delta
              emission_check fuel (i + delta_i)
          else .ok i
      | _, _ => .error .indexError

def compute_line_width (idx_peak : ℤ) (spec_flux : List ℚ) (delta_i : ℤ)
    (min_delta : ℤ) (emission_check : Bool) (fuel : ℕ) : Except WalkErr ℤ :=
  compute_line_width_go spec_flux idx_peak delta_i min_delta emission_check
    fuel idx_peak

def compute_FWHM0_go (spec_flux cont_flux : List ℚ) (delta_wave : ℤ)
    (emission_check : Bool) (i_final : ℤ) : ℕ → ℤ → Except WalkErr ℤ
  | 0, _ => .error .fuelExhausted
  | fuel + 1, i =>
      match pyGet spec_flux i, pyGet cont_flux i with
      | some fi, some ci =>
          if (if emission_check then ci ≤ fi else fi ≤ ci) ∧ i ≠ i_final then
            compute_FWHM0_go spec_flux cont_flux delta_wave emission_check
              i_final fuel (i + delta_wave)
          else .ok i
      | _, _ => .error .indexError

def compute_FWHM0 (idx_peak : ℤ) (spec_flux : List ℚ) (delta_wave : ℤ)
    (cont_flux : List ℚ) (emission_check : Bool) (fuel : ℕ) : Except WalkErr ℤ :=
  let i_final : ℤ := if delta_wave < 0 then 0 else (spec_flux.length : ℤ) - 1
  compute_FWHM0_go spec_flux cont_flux delta_wave emission_check i_final
    fuel idx_peak

lemma pyGet_in_bounds (l : List ℚ) (i : ℤ) (h0 : 0 ≤ i) (hl : i < l.length) :
    ∃ v, pyGet l i = some v := by
  have hnat : i.toNat < l.length := by omega
  unfold pyGet
  rw [if_pos ⟨h0, hl⟩]
  exact ⟨l.get ⟨i.toNat, hnat⟩, List.get?_eq_get hnat⟩

lemma compute_FWHM0_go_safe (flux cont : List ℚ)
    (hlen : cont.length = flux.length) (em : Bool) (d : ℤ)
    (hd : d = 1 ∨ d = -1) (i_final : ℤ)
    (hfin : i_final = if d < 0 then 0 else (flux.length : ℤ) - 1) :
    ∀ fuel (i : ℤ), 0 ≤ i → i < flux.length → (i_final - i).natAbs < fuel →
      ∃ j, compute_FWHM0_go flux cont d em i_final fuel i = .ok j ∧
        0 ≤ j ∧ j < flux.length := by
  intro fuel
  induction fuel with
  | zero => intro i _ _ hfuel; omega
  | succ fuel ih =>
      intro i h0 hlt hfuel
      obtain ⟨fi, hfi⟩ := pyGet_in_bounds flux i h0 hlt
      obtain ⟨ci, hci⟩ := pyGet_in_bounds cont i h0 (by omega)
      rw [compute_FWHM0_go]
      simp only [hfi, hci]
      by_cases hcond : (if em then ci ≤ fi else fi ≤ ci) ∧ i ≠ i_final
      · rw [if_pos hcond]
        rcases hd with rfl | rfl
        · have hfin' : i_final = (flux.length : ℤ) - 1 := by
            rw [hfin]; norm_num
          exact ih (i + 1) (by omega) (by omega) (by omega)
        · have hfin' : i_final = 0 := by rw [hfin]; norm_num
          exact ih (i + -1) (by omega) (by omega) (by omega)
      · rw [if_neg hcond]
        exact ⟨i, rfl, h0, hlt⟩

/-- C10 — `compute_line_width` walks without a boundary check: on the
strictly decreasing flux `[5,4,3,2,1]` with the peak at interior index
`2`, step `+1` and `min_delta = 2`, the walk reaches the array end and
evaluates `spec_flux[5]`, out of bounds (NumPy `IndexError`).
`compute_FWHM0`, by contrast, stops at the array boundary through its
`i_final` check: for every flux/continuum pair of equal length, every
in-bounds start index, either direction and enough fuel, it returns an
in-bounds index and never an out-of-bounds error. -/
theorem compute_line_width_oob_reachable :
    compute_line_width 2 [5, 4, 3, 2, 1] 1 2 true 10 =
      .error WalkErr.indexError ∧
    ∀ (flux cont : List ℚ), cont.length = flux.length →
      ∀ (i : ℤ), 0 ≤ i → i < flux.length → ∀ (em : Bool) (d : ℤ),
      (d = 1 ∨ d = -1) → ∀ fuel, flux.length < fuel →
      ∃ j, compute_FWHM0 i flux d cont em fuel = .ok j ∧
        0 ≤ j ∧ j < flux.length := by
  constructor
  · rfl
  · intro flux cont hlen i h0 hlt em d hd fuel hfuel
    have hfin : (if d < 0 then 0 else (flux.length : ℤ) - 1) =
        if d < 0 then 0 else (flux.length : ℤ) - 1 := rfl
    refine compute_FWHM0_go_safe flux cont hlen em d hd _ hfin fuel i h0 hlt ?_
    rcases hd with rfl | rfl
    · have : ¬ ((1 : ℤ) < 0) := by norm_num
      rw [if_neg this]
      omega
    · have : ((-1 : ℤ) < 0) := by norm_num
      rw [if_pos this]
      omega

/-- C10 witness: the `compute_FWHM0` safety conjunct instantiated at the
concrete spectrum `[1,2,1]` with flat continuum `[0,0,0]`, peak index 1,
direction `+1`. -/
theorem compute_line_width_oob_reachable_witness :
    ∃ j, compute_FWHM0 1 [1, 2, 1] 1 [0, 0, 0] true 4 = .ok j ∧
      0 ≤ j ∧ j < ([1, 2, 1] : List ℚ).length :=
  compute_line_width_oob_reachable.2 [1, 2, 1] [0, 0, 0] rfl 1
    (by norm_num) (by norm_num) true 1 (Or.inl rfl) 4 (by norm_num)

/-! ## `tools.LineFinder.label_peaks`

Source (`tools.py:409-477`), reduced to the matching/retention core the
claims address. The method copies the input mask, returns an empty table
when no peaks were found, converts the detected peak sample indices to
rest-frame wavelengths (`wave_peaks = self.wave_rest[idcsLinePeak]`),
computes each mask row's theoretical wavelength via
`label_decomposition`, sets the matching tolerance
```
tolerance = np.diff(self.wave_rest).mean() * width_tol
```
and, for every peak wavelength, runs
```
idx_array = np.where(np.isclose(a=waveTheory, b=wave_peaks[i], atol=tolerance))
```
(NumPy's `isclose` keeps its default relative tolerance
`rtol = 1e-05`: `|a - b| <= atol + rtol*|b|`). An unmatched peak is
discarded, or — when `detect_check` — registered as a new
`xy_{...}A` row; a matched peak flags every mask row whose theoretical
wavelength equals the first matching one as `'detected'`. Finally the
rows never flagged `detected` are dropped and the survivors sorted by
wavelength. A mask row is modelled by its label and the theoretical
wavelength `label_decomposition` assigns to it; the `width_mode='auto'`
band-edge refinement only rewrites `w3/w4` of matched rows and does not
affect which rows are retained, so it is not re-modelled here. -/

/-- Default relative tolerance of `np.isclose`. -/
def np_rtol : ℚ := 1 / 100000

/-- `np.isclose(a, b, atol)` with the default `rtol = 1e-05`. -/
def np_isclose (a b atol : ℚ) : Bool := |a - b| ≤ atol + np_rtol * |b|

/-- `np.diff(wave).mean()`: mean consecutive sampling step. -/
def meanDiff (wave : List ℚ) : ℚ :=
  ((wave.zip wave.tail).map (fun q => q.2 - q.1)).sum / ((wave.length : ℚ) - 1)

structure MaskRow where
  label : String
  wavelength : ℚ
  deriving DecidableEq, Repr

def insertByWave (r : MaskRow) : List MaskRow → List MaskRow
  | [] => [r]
  | x :: xs => if r.wavelength ≤ x.wavelength then r :: x :: xs
               else x :: insertByWave r xs

/-- `matched_DF.sort_values('wavelength')`: ascending sort by theoretical
wavelength. -/
def sortByWave : List MaskRow → List MaskRow
  | [] => []
  | x :: xs => insertByWave x (sortByWave xs)

/-- One iteration of the peak loop: the state is the per-row `detected`
flags plus the wavelengths of added unknown (`'not_identified'`) rows. -/
def matchStep (mask : List MaskRow) (tol : ℚ) (detect_check : Bool)
    (st : List Bool × List ℚ) (peak : ℚ) : List Bool × List ℚ :=
  let waveTheory := mask.map MaskRow.wavelength
  match waveTheory.findIdx? (fun w => np_isclose w peak tol) with
  | some j =>
      let wj := (waveTheory.get? j).getD 0
      ((mask.zip st.1).map (fun q => if q.1.wavelength = wj then true else q.2),
       st.2)
  | none => if detect_check then (st.1, st.2 ++ [peak]) else st

/-- The matching/retention pipeline of `label_peaks`: returns the mask
rows flagged `detected` (sorted by wavelength) together with the
wavelengths of any unknown rows added under `detect_check`. -/
def label_peaks (wave_rest : List ℚ) (peak_idxs : List ℕ) (mask : List MaskRow)
    (width_tol : ℚ) (detect_check : Bool) : List MaskRow × List ℚ :=
  if peak_idxs = [] then ([], [])
  else
    let wave_peaks := peak_idxs.filterMap (fun k => wave_rest.get? k)
    let tol := meanDiff wave_rest * width_tol
    let final := wave_peaks.foldl (matchStep mask tol detect_check)
      (mask.map (fun _ => false), [])
    (sortByWave ((mask.zip final.1).filterMap
        (fun q => if q.2 then some q.1 else none)),
     final.2)

/-- The example rest-frame wavelength grid of the tolerance
counterexample: uniform sampling step `0.04`. -/
def exGrid : List ℚ := [5007.14, 5007.18, 5007.22, 5007.26]

/-- C6 counterexample — with the rest-frame grid `exGrid` (mean sampling
step `0.04`, so tolerance `0.04 * 5 = 0.2`) and one theoretical line at
`5007.0`, the peak at grid index 2, i.e. at `5007.22 = 5007 + 1.1 *
tolerance`, IS matched and retained even with `detect_check` disabled:
NumPy's `isclose` keeps its default relative tolerance `1e-05`, and
`0.22 ≤ 0.2 + 1e-05 * 5007.22` holds. The claim says such a peak must
not match and must be discarded. -/
lemma label_peaks_single (wave_rest : List ℚ) (k : ℕ) (p : ℚ)
    (hk : wave_rest.get? k = some p) (lbl : String) (w wtol : ℚ)
    (detect_check : Bool) :
    label_peaks wave_rest [k] [⟨lbl, w⟩] wtol detect_check =
      if np_isclose w p (meanDiff wave_rest * wtol) then ([⟨lbl, w⟩], [])
      else if detect_check then ([], [p]) else ([], []) := by
  unfold label_peaks
  rw [if_neg (by simp)]
  simp only [List.filterMap, hk]
  by_cases h : np_isclose w p (meanDiff wave_rest * wtol)
  · rw [if_pos h]
    simp [matchStep, List.findIdx?, h, sortByWave, insertByWave]
  · rw [if_neg h]
    by_cases hd : detect_check
    · subst hd
      simp [matchStep, List.findIdx?, h, sortByWave]
    · simp only [Bool.not_eq_true] at hd
      subst hd
      simp [matchStep, List.findIdx?, h, sortByWave]

/-- C6 counterexample — with the rest-frame grid `exGrid` (mean sampling
step `0.04`, so tolerance `0.04 * 5 = 0.2`) and one theoretical line at
`5007.0`, the peak at grid index 2, i.e. at `5007.22 = 5007 + 1.1 *
tolerance`, IS matched and retained even with `detect_check` disabled:
NumPy's `isclose` keeps its default relative tolerance `1e-05`, and
`0.22 ≤ 0.2 + 1e-05 * 5007.22` holds. The claim says such a peak must
not match and must be discarded. -/
theorem label_peaks_tolerance_counterexample :
    meanDiff exGrid * 5 = 0.2 ∧
    exGrid.get? 2 = some (5007 + 1.1 * 0.2) ∧
    label_peaks exGrid [2] [⟨"O3_5007A", 5007⟩] 5 false =
      ([⟨"O3_5007A", 5007⟩], []) := by
  have htol : meanDiff exGrid * 5 = 0.2 := by norm_num [meanDiff, exGrid]
  have hget : exGrid.get? 2 = some (5007 + 1.1 * 0.2) := by
    have h : exGrid.get? 2 = some 5007.22 := rfl
    rw [h]
    norm_num
  refine ⟨htol, hget, ?_⟩
  rw [label_peaks_single exGrid 2 (5007 + 1.1 * 0.2) hget "O3_5007A" 5007 5 false]
  have hcl : np_isclose 5007 (5007 + 1.1 * 0.2) (meanDiff exGrid * 5) = true := by
    unfold np_isclose np_rtol
    rw [htol]
    rw [show (5007 : ℚ) - (5007 + 1.1 * 0.2) = -(0.22 : ℚ) by norm_num]
    rw [abs_neg, abs_of_nonneg (by norm_num : (0 : ℚ) ≤ 0.22),
        abs_of_nonneg (by norm_num : (0 : ℚ) ≤ (5007 + 1.1 * 0.2 : ℚ))]
    norm_num
  simp [hcl]

/-- C6 amended — with tolerance `t` equal to the mean rest-frame sampling
step times `width_tol` and one theoretical line at wavelength `w`: a
detected peak at `w + 0.9·t` is always matched and retained; a peak at
`w + 1.1·t` is matched iff `t/10 ≤ 1e-05·|w + 1.1·t|` — so it still
matches for small tolerances, because `np.isclose` keeps its default
*relative* tolerance on top of the absolute one — and whenever it fails
to match (and `detect_check` is off) the returned log is empty. -/
theorem label_peaks_tolerance (wave_rest : List ℚ) (k : ℕ) (p : ℚ)
    (hk : wave_rest.get? k = some p) (lbl : String) (w wtol : ℚ) (t : ℚ)
    (ht : t = meanDiff wave_rest * wtol) (ht0 : 0 ≤ t) :
    (p = w + 9/10 * t →
      label_peaks wave_rest [k] [⟨lbl, w⟩] wtol false = ([⟨lbl, w⟩], [])) ∧
    (p = w + 11/10 * t →
      (np_isclose w p t = true ↔ t / 10 ≤ np_rtol * |p|) ∧
      (np_isclose w p t = false →
        label_peaks wave_rest [k] [⟨lbl, w⟩] wtol false = ([], []))) := by
  constructor
  · intro hp
    rw [label_peaks_single wave_rest k p hk lbl w wtol false, ← ht]
    have hcl : np_isclose w p t = true := by
      unfold np_isclose np_rtol
      rw [hp]
      have habs : |w - (w + 9/10 * t)| = 9/10 * t := by
        rw [show w - (w + 9/10 * t) = -(9/10 * t) by ring, abs_neg,
            abs_of_nonneg (by positivity)]
      rw [habs]
      have : (0 : ℚ) ≤ 1 / 100000 * |w + 9/10 * t| := by positivity
      simp only [decide_eq_true_eq]
      linarith
    rw [hcl, if_pos rfl]
  · intro hp
    have habs : |w - p| = 11/10 * t := by
      rw [hp, show w - (w + 11/10 * t) = -(11/10 * t) by ring, abs_neg,
          abs_of_nonneg (by positivity)]
    constructor
    · unfold np_isclose np_rtol
      rw [habs]
      simp only [decide_eq_true_eq]
      constructor
      · intro h; linarith
      · intro h; linarith
    · intro hfail
      rw [label_peaks_single wave_rest k p hk lbl w wtol false, ← ht, hfail]
      simp

/-- C6 witness: on a grid with mean step `2` (tolerance `10`), the peak
at `5007 + 0.9·10 = 5016` (grid index 1) is matched and retained. -/
theorem label_peaks_tolerance_witness :
    ([(5014 : ℚ), 5016, 5018].get? 1 = some 5016) ∧
    ((10 : ℚ) = meanDiff [5014, 5016, 5018] * 5) ∧ ((0 : ℚ) ≤ 10) ∧
    ((5016 : ℚ) = 5007 + 9/10 * 10) ∧
    label_peaks [5014, 5016, 5018] [1] [⟨"O3_5007A", 5007⟩] 5 false =
      ([⟨"O3_5007A", 5007⟩], []) := by
  refine ⟨rfl, by norm_num [meanDiff], by norm_num, by norm_num, ?_⟩
  exact (label_peaks_tolerance [5014, 5016, 5018] 1 5016 rfl "O3_5007A" 5007 5
    10 (by norm_num [meanDiff]) (by norm_num)).1 (by norm_num)

/-! ## `tools.label_decomposition`

Source (`tools.py:47-187`). Python string primitives are modelled on
`List Char` with Python's slice semantics (`s[a:b]` clamps, negative
indices count from the end, `str.find`/`str.rfind` return `-1` when
absent), and each Python exception path (`KeyError` on the units
dictionary, `IndexError` on `ion[-1]`, `ValueError` on `int`/`float`)
becomes `none`. -/

/-- Python index normalisation for slicing on a sequence of length `L`:
negative indices count from the end, everything clamps into `[0, L]`. -/
def pyNormIdx (L : ℕ) (n : ℤ) : ℕ :=
  if n < 0 then ((L : ℤ) + n).toNat else min n.toNat L

/-- Python `s[:n]`. -/
def pySliceTo (l : List Char) (n : ℤ) : List Char :=
  l.take (pyNormIdx l.length n)

/-- Python `s[n:]`. -/
def pySliceFrom (l : List Char) (n : ℤ) : List Char :=
  l.drop (pyNormIdx l.length n)

/-- Python `s[a:b]`. -/
def pySliceRange (l : List Char) (a b : ℤ) : List Char :=
  (l.take (pyNormIdx l.length b)).drop (pyNormIdx l.length a)

/-- Python `s.find(c)` for a single character: first index or `-1`. -/
def pyFindChar (c : Char) (l : List Char) : ℤ :=
  match l.findIdx? (fun x => x = c) with
  | some n => n
  | none => -1

/-- Python `s.rfind(sub)`: highest index where `sub` starts, or `-1`. -/
def rfindSub (needle hay : List Char) : ℤ :=
  (List.range (hay.length + 1)).foldl
    (fun acc i => if needle.isPrefixOf (hay.drop i) then (i : ℤ) else acc) (-1)

/-- Python `sub in s`: substring containment. -/
def containsSub (needle hay : List Char) : Bool :=
  (List.range (hay.length + 1)).any (fun i => needle.isPrefixOf (hay.drop i))

/-- Python `s.split(c)` for a one-character separator. -/
def splitOnChar (c : Char) (l : List Char) : List (List Char) :=
  l.foldr (fun x acc => match acc with
    | [] => [[x]]
    | cur :: rest => if x = c then [] :: cur :: rest else (x :: cur) :: rest) [[]]

def charDigit? (c : Char) : Option ℕ :=
  if c.isDigit then some (c.toNat - '0'.toNat) else none

def digitsToNat? (l : List Char) : Option ℕ :=
  l.foldl (fun acc c => match acc, charDigit? c with
    | some n, some d => some (n * 10 + d)
    | _, _ => none) (some 0)

/-- Python `float(s)` restricted to plain decimal notation (all the
wavelength fields of LiMe labels): `none` models `ValueError`. -/
def parseFloat? (l : List Char) : Option ℚ :=
  match splitOnChar '.' l with
  | [ip] => if ip = [] then none else (digitsToNat? ip).map (fun n => (n : ℚ))
  | [ip, fp] =>
      if ip = [] ∧ fp = [] then none
      else match digitsToNat? ip, digitsToNat? fp with
           | some n, some f => some ((n : ℚ) + (f : ℚ) / (10 : ℚ) ^ fp.length)
           | _, _ => none
  | _ => none

/-- `tools.py:19-20`: the subtractive-notation value/symbol tables,
paired. -/
def VAL_SYB_LIST : List (ℕ × String) :=
  [(1000, "M"), (900, "CM"), (500, "D"), (400, "CD"), (100, "C"), (90, "XC"),
   (50, "L"), (40, "XL"), (10, "X"), (9, "IX"), (5, "V"), (4, "IV"), (1, "I")]

def int_to_roman_go : List (ℕ × String) → ℕ → String
  | [], _ => ""
  | (v, s) :: rest, num =>
      String.join (List.replicate (num / v) s) ++ int_to_roman_go rest (num % v)

/-- `tools.int_to_roman` (`tools.py:37-44`), the standard greedy
encoder: each table entry contributes `num // value` copies of its
symbol and passes the remainder on. -/
def int_to_roman (num : ℕ) : String := int_to_roman_go VAL_SYB_LIST num

/-- `tools.py:24-29`: `UNITS_LATEX_DICT`; `none` models `KeyError`. -/
def UNITS_LATEX_DICT (u : String) : Option String :=
  if u = "A" then some "\\AA"
  else if u = "um" then some "\\mu\\!m"
  else if u = "nm" then some "nm"
  else if u = "erg/cm^2/s/A" then some "erg\\,cm^{-2} s^{-1} \\AA^{-1}"
  else if u = "Jy" then some "Jy"
  else if u = "mJy" then some "mJy"
  else none

/-- The per-component body of the `label_decomposition` loop
(`tools.py:123-153`): parses one `-`-free component into its ion string,
wavelength value and Latex fragment `comp_line`. Recombination ions
render as `{atom}{roman}\,{wavelength}{units}{ext}`, all others as
`[{atom}{roman}]\,{wavelength}{units}{ext}`. -/
def decompose_component (units_wave : String) (recomb_atom : List String)
    (lc : List Char) : Option (String × ℚ × String) :=
  let kinem_comp_check : Bool := !(lc.countP (fun x => decide (x = '_')) == 1)
  let find_u : ℤ := pyFindChar '_' lc
  let ion : List Char :=
    if containsSub ['r', '_'] lc then pySliceTo lc (find_u - 1)
    else pySliceTo lc find_u
  let endsWithUnits : Bool := units_wave.data.reverse.isPrefixOf lc.reverse
  let wue : Option (List Char × String × List Char) :=
    if endsWithUnits || kinem_comp_check then
      match UNITS_LATEX_DICT units_wave with
      | none => none
      | some u =>
          let wavelength := pySliceRange lc (find_u + 1) (rfindSub units_wave.data lc)
          let ext := if kinem_comp_check then
              '-' :: pySliceFrom lc (rfindSub ['_'] lc + 1) else []
          some (wavelength, u, ext)
    else some (pySliceFrom lc (find_u + 1), "", [])
  match wue with
  | none => none
  | some (wavelength, units, ext) =>
      match ion.getLast? with
      | none => none
      | some lastc =>
          match charDigit? lastc with
          | none => none
          | some d =>
              match parseFloat? wavelength with
              | none => none
              | some wq =>
                  let atom : String := ⟨pySliceTo ion (-1)⟩
                  let roman := int_to_roman d
                  let ionS : String := ⟨ion⟩
                  let wavS : String := ⟨wavelength⟩
                  let extS : String := ⟨ext⟩
                  let comp_line :=
                    if ionS ∈ recomb_atom then
                      atom ++ roman ++ "\\," ++ wavS ++ units ++ extS
                    else
                      "[" ++ atom ++ roman ++ "]" ++ "\\," ++ wavS ++ units ++ extS
                  some (ionS, wq, comp_line)

def joinPlus : List String → String
  | [] => ""
  | [s] => s
  | s :: rest => s ++ "+" ++ joinPlus rest

/-- `label_decomposition` (`tools.py:47-187`) specialised to one input
label in the default format (`user_format` empty) and `scalar_output` —
the configuration of the claim. A `_b`/`_m` label resolves its
constituents from `comp_dict` or by stripping the suffix, splits on
`-`, takes ion and wavelength from the constituent equal to the
suffix-stripped label, and joins every constituent's Latex fragment with
`+`; a plain label with a single component returns that component's
triple with the fragment wrapped in `$...$`. `none` covers the paths
where CPython raises (parse failures) or where no single scalar triple
is produced. -/
def label_decomposition_single (recomb_atom : List String)
    (comp_dict : String → Option String) (units_wave : String)
    (lineLabel : String) : Option (String × ℚ × String) :=
  let suffix := pySliceLastTwo lineLabel
  let mixture : Bool := suffix == "_b" || suffix == "_m"
  let lineRef : String :=
    if mixture then (comp_dict lineLabel).getD (pyDropLastTwo lineLabel)
    else lineLabel
  let comps : List (List Char) := splitOnChar '-' lineRef.data
  if mixture then
    match comps.mapM (decompose_component units_wave recomb_atom) with
    | none => none
    | some parts =>
        let stem := pyDropLastTwo lineLabel
        let latex := "$" ++ joinPlus (parts.map (fun t => t.2.2)) ++ "$"
        match (comps.zip parts).find? (fun q => (⟨q.1⟩ : String) == stem) with
        | some q => some (q.2.1, q.2.2.1, latex)
        | none => none
  else
    match comps with
    | [c] => (decompose_component units_wave recomb_atom c).map
        (fun t => (t.1, t.2.1, "$" ++ t.2.2 ++ "$"))
    | _ => none

/-- C1 — evaluated at the claim's input, the code returns ion `'O3'` and
wavelength `5007.0` as documented, but the Latex label is
`'$[OIII]\,5007\AA$'` — the bracketed ion term comes *before* the
wavelength — whereas the function's own docstring example
(`tools.py:80-81`) and the claim promise `'$5007\AA\,[OIII]$'`. The
bracket convention itself behaves as claimed: `O3` (not in
`recomb_atom`) renders bracketed, while `H1` (in the set) renders
without brackets. -/
theorem label_decomposition_O3_5007A :
    label_decomposition_single ["H1", "He1", "He2"] (fun _ => none) "A"
      "O3_5007A" = some ("O3", 5007, "$[OIII]\\,5007\\AA$") ∧
    "$[OIII]\\,5007\\AA$" ≠ "$5007\\AA\\,[OIII]$" ∧
    label_decomposition_single ["H1", "He1", "He2"] (fun _ => none) "A"
      "H1_6563A" = some ("H1", 6563, "$HI\\,6563\\AA$") := by
  refine ⟨by decide, by decide, by decide⟩

end LiMe
